import Mathlib

/-!
Verification development for the Employee-Time-Tracker backend
(`backend/server.js`).  The definitions below are a shallow embedding of
the attendance-status and aggregation logic of the route handlers; each
doc comment of each definition names the source function or endpoint it embeds.

Timestamps are stored by the backend through the sqlite builtin
`datetime("now","localtime")`, i.e. with one-second precision and one
local calendar, so an instant is modelled by its calendar day (an integer
day number, 1970-01-01 being day 0), hour, minute and second.  JavaScript
number arithmetic on these instants is exact (all quantities involved are
far below 2^53), so it is modelled on the rationals.
-/

namespace TimeTracker

/-- JavaScript `Math.round`: round half toward positive infinity,
`Math.round x = ⌊x + 1/2⌋`. -/
def jsRound (x : ℚ) : ℤ := ⌊x + 1/2⌋

/-- The 2-decimal rounding idiom used throughout `server.js`:
`Math.round(x * 100) / 100`. -/
def round2 (x : ℚ) : ℚ := (jsRound (x * 100) : ℚ) / 100

/-- A local-time instant at the second precision the backend stores
(`datetime("now","localtime")`): calendar day index plus time of day,
mirroring the components a JS `Date` exposes (`getHours`, `getMinutes`,
`getSeconds`). -/
structure Timestamp where
  day : ℤ
  hour : ℕ
  minute : ℕ
  second : ℕ
deriving DecidableEq, Repr

/-- Milliseconds since day 0, the quantity JS `Date` subtraction yields. -/
def Timestamp.toMillis (t : Timestamp) : ℤ :=
  (((t.day * 24 + t.hour) * 60 + t.minute) * 60 + t.second) * 1000

/-- `const d = new Date(t); d.setHours(h, m, 0)`: same calendar day,
given hour and minute, seconds cleared — how the handlers place the
expected schedule start on the same day as the clock-in. -/
def setHours (t : Timestamp) (h m : ℕ) : Timestamp :=
  ⟨t.day, h, m, 0⟩

/-- `(clockOutDate - clockInDate) / (1000 * 60 * 60)`: elapsed wall-clock
time in hours, before any rounding (line 1808 of `server.js`). -/
def rawHours (clockIn clockOut : Timestamp) : ℚ :=
  ((clockOut.toMillis - clockIn.toMillis : ℤ) : ℚ) / (1000 * 60 * 60)

/-- The object literal returned by `detectAttendanceStatus`.  The
`clockInTime` "HH:MM" string is kept as its (hour, minute) pair. -/
structure StatusResult where
  isLate : Bool
  isUndertime : Bool
  isOvertime : Bool
  clockInTime : ℕ × ℕ
  hoursWorked : ℚ
  expectedHours : ℚ
  lateMinutes : ℤ
  undertimeHours : ℚ
  overtimeHours : ℚ
deriving DecidableEq, Repr

/-- `detectAttendanceStatus(clockInTime, clockOutTime, expectedStartTime,
expectedEndTime, expectedHours)` (`server.js` lines 1800-1845).  The
`expectedStartTime` "HH:MM" string arrives here already split into
`expectedStartHour`/`expectedStartMinute`; `expectedEndTime` is accepted
and ignored exactly as in the source.  Note the late/undertime/overtime
guards compare the *unrounded* `hoursWorked` local, while the returned
`hoursWorked` field is rounded to 2 decimals. -/
def detectAttendanceStatus (clockIn clockOut : Timestamp)
    (expectedStartHour expectedStartMinute : ℕ) (expectedHours : ℚ) :
    StatusResult :=
  let hoursWorked : ℚ := rawHours clockIn clockOut
  let expectedStartDate : Timestamp :=
    setHours clockIn expectedStartHour expectedStartMinute
  { isLate := decide (expectedStartDate.toMillis < clockIn.toMillis)
    lateMinutes :=
      if expectedStartDate.toMillis < clockIn.toMillis then
        jsRound (((clockIn.toMillis - expectedStartDate.toMillis : ℤ) : ℚ)
          / (1000 * 60))
      else 0
    isUndertime := decide (hoursWorked < expectedHours)
    undertimeHours :=
      if hoursWorked < expectedHours then round2 (expectedHours - hoursWorked)
      else 0
    isOvertime := decide (expectedHours < hoursWorked)
    overtimeHours :=
      if expectedHours < hoursWorked then round2 (hoursWorked - expectedHours)
      else 0
    clockInTime := (clockIn.hour, clockIn.minute)
    hoursWorked := round2 hoursWorked
    expectedHours := expectedHours }

/-- The incomplete-record branch of `GET /api/attendance-status/:employee_id`
(`server.js` lines 1878-1902): no clock-out, so only lateness is computed
and every hours-based field is forced to false/zero.  (The JS object built
there carries no `expectedHours` key; the field here just echoes the
resolved schedule value.) -/
def classifyIncomplete (clockIn : Timestamp)
    (expectedStartHour expectedStartMinute : ℕ) (expectedHours : ℚ) :
    StatusResult :=
  let expectedStartDate : Timestamp :=
    setHours clockIn expectedStartHour expectedStartMinute
  { isLate := decide (expectedStartDate.toMillis < clockIn.toMillis)
    lateMinutes :=
      if expectedStartDate.toMillis < clockIn.toMillis then
        jsRound (((clockIn.toMillis - expectedStartDate.toMillis : ℤ) : ℚ)
          / (1000 * 60))
      else 0
    isUndertime := false
    undertimeHours := 0
    isOvertime := false
    overtimeHours := 0
    clockInTime := (clockIn.hour, clockIn.minute)
    hoursWorked := 0
    expectedHours := expectedHours }

/-- The per-record dispatch of `GET /api/attendance-status/:employee_id`
(`server.js` lines 1876-1908): records without a clock-out take the
lateness-only branch, completed records go through
`detectAttendanceStatus`. -/
def classifyRecord (clockIn : Timestamp) (clockOut : Option Timestamp)
    (expectedStartHour expectedStartMinute : ℕ) (expectedHours : ℚ) :
    StatusResult :=
  match clockOut with
  | none => classifyIncomplete clockIn expectedStartHour expectedStartMinute
      expectedHours
  | some out => detectAttendanceStatus clockIn out expectedStartHour
      expectedStartMinute expectedHours

/-! ### Exception detector (`GET /api/reports/errors-and-missing`) -/

/-- JS `Date.prototype.getDay` on a day number: day 0 (1970-01-01) was a
Thursday, and `getDay` numbers Sunday as 0 and Saturday as 6. -/
def jsGetDay (d : ℤ) : ℤ := (d + 4) % 7

/-- The weekday test of the expected-work-days loop (`server.js` lines
2947-2952): `dayOfWeek !== 0 && dayOfWeek !== 6`. -/
def isWeekday (d : ℤ) : Bool := decide (jsGetDay d ≠ 0 ∧ jsGetDay d ≠ 6)

/-- The date loop `for (let d = start; d <= end; d.setDate(d.getDate()+1))`:
every calendar day from `s` to `e` inclusive (empty when `s > e`). -/
def dateRange (s e : ℤ) : List ℤ :=
  (List.range (e + 1 - s).toNat).map (fun i : ℕ => s + (i : ℤ))

/-- `expectedDates` of the errors-and-missing handler: the weekdays of the
requested range (`server.js` lines 2942-2952). -/
def expectedDates (s e : ℤ) : List ℤ := (dateRange s e).filter isWeekday

/-- One attendance row as the exception detector sees it: owning employee,
calendar day of the clock-in (`date(clock_in)`), and whether a clock-out
is present. -/
structure AttRow where
  employee : ℕ
  workDate : ℤ
  hasClockOut : Bool
deriving DecidableEq, Repr

/-- The per-employee attendance map (`server.js` lines 2920-2940): the SQL
groups rows of the range by employee and `date(clock_in)` — any row counts,
with or without a clock-out — and the handler collects the dates into a
set per employee. -/
def attendedDates (rows : List AttRow) (emp : ℕ) (s e : ℤ) : List ℤ :=
  ((rows.filter (fun r =>
      r.employee == emp && decide (s ≤ r.workDate) && decide (r.workDate ≤ e))).map
    (fun r => r.workDate)).dedup

/-- The missing days reported for one employee (`server.js` lines
2954-2969): every expected (weekday) date of the range that the attendance
set of this employee does not contain. -/
def missingDays (rows : List AttRow) (emp : ℕ) (s e : ℤ) : List ℤ :=
  (expectedDates s e).filter (fun d => !((attendedDates rows emp s e).contains d))

/-- The incomplete-records query of the same handler (`server.js` lines
2896-2909): rows of the range whose `clock_out` is null. -/
def incompleteInRange (rows : List AttRow) (s e : ℤ) : List AttRow :=
  rows.filter (fun r =>
    !r.hasClockOut && decide (s ≤ r.workDate) && decide (r.workDate ≤ e))

/-! ### Schedule comparison (`GET /api/schedule-comparison/:employee_id`) -/

/-- One attendance row as the schedule-comparison handler reads it:
clock-in instant, optional clock-out, and the stored `hours_worked`
column. -/
structure CompRecord where
  clockIn : Timestamp
  clockOut : Option Timestamp
  hoursWorked : ℚ
deriving DecidableEq, Repr

/-- The per-day comparison object (`server.js` lines 2443-2483), keeping
its `variance` and `compliance` fields. -/
structure DayComparison where
  startVarianceMinutes : ℤ
  hoursVariance : ℚ
  onTime : Bool
  meetsExpectedHours : Bool
  overall : Bool
deriving DecidableEq, Repr

/-- The body of the `records.map` of the schedule-comparison handler
(`server.js` lines 2443-2483): start variance in rounded minutes against
the expected start placed on the day of the clock-in, hours variance
against the stored `hours_worked`, `on_time = startVarianceMinutes <= 0`,
`meets_expected_hours = hours_worked >= expectedHours`, and
`overall = on_time && meets_expected_hours`. -/
def compareDay (r : CompRecord) (esh esm : ℕ) (expectedHours : ℚ) :
    DayComparison :=
  let expectedStartDate := setHours r.clockIn esh esm
  let sv : ℤ :=
    jsRound (((r.clockIn.toMillis - expectedStartDate.toMillis : ℤ) : ℚ)
      / (1000 * 60))
  { startVarianceMinutes := sv
    hoursVariance := round2 (r.hoursWorked - expectedHours)
    onTime := decide (sv ≤ 0)
    meetsExpectedHours := decide (expectedHours ≤ r.hoursWorked)
    overall := decide (sv ≤ 0) && decide (expectedHours ≤ r.hoursWorked) }

/-- The schedule-comparison report: the SQL keeps only rows of the range
with `clock_out IS NOT NULL` (`server.js` lines 2424-2438), and each kept
row is mapped through `compareDay`. -/
def scheduleComparison (rows : List CompRecord) (esh esm : ℕ) (eh : ℚ)
    (s e : ℤ) : List DayComparison :=
  (rows.filter (fun r =>
      r.clockOut.isSome && decide (s ≤ r.clockIn.day) &&
        decide (r.clockIn.day ≤ e))).map
    (fun r => compareDay r esh esm eh)

/-! ### Clock-in path (`POST /api/clock-in`, `POST /api/attendance-scan`) -/

/-- An attendance row as the clock-in path sees it: owning employee and
whether the row is still open (`clock_out IS NULL`). -/
structure ARecord where
  employee : ℕ
  isOpen : Bool
deriving DecidableEq, Repr

/-- Number of open rows of one employee in the table. -/
def openCount (db : List ARecord) (e : ℕ) : ℕ :=
  db.countP (fun r => r.employee == e && r.isOpen)

/-- The invariant of the clock-in path: at most one open row per
employee. -/
def AtMostOneOpen (db : List ARecord) : Prop := ∀ e, openCount db e ≤ 1

/-- `POST /api/clock-in` (`server.js` lines 1418-1440): if a row of the
employee with `clock_out IS NULL` exists the request fails with
`Already clocked in` and nothing is inserted; otherwise a fresh open row
is inserted. -/
def clockInOp (db : List ARecord) (e : ℕ) : Except String (List ARecord) :=
  if db.any (fun r => r.employee == e && r.isOpen) then
    Except.error "Already clocked in"
  else
    Except.ok (db ++ [⟨e, true⟩])

/-- The `UPDATE ... WHERE id = ?` of the scan toggle closes exactly the
open row the preceding `db.get` selected; the selected row is modelled as
the first open row of the employee in the table. -/
def closeFirstOpen : List ARecord → ℕ → List ARecord
  | [], _ => []
  | r :: rs, e =>
    if r.employee == e && r.isOpen then ⟨r.employee, false⟩ :: rs
    else r :: closeFirstOpen rs e

/-- `POST /api/attendance-scan` (`server.js` lines 2215-2242): when an
open row of the employee exists it is closed (clock-out), and only
otherwise a new open row is inserted (clock-in). -/
def attendanceScan (db : List ARecord) (e : ℕ) : List ARecord :=
  if db.any (fun r => r.employee == e && r.isOpen) then closeFirstOpen db e
  else db ++ [⟨e, true⟩]

/-! ### Payroll breakdown (`GET /api/reports/payroll-breakdown/:employee_id`) -/

/-- One attendance row as the payroll-breakdown handler reads it. -/
structure PayRecord where
  clockIn : Timestamp
  clockOut : Option Timestamp
deriving DecidableEq, Repr

/-- The per-record hours of the payroll breakdown (`server.js` lines
3117-3133): a completed row contributes `status.hoursWorked || 0` — which
equals the classifier field, `0 || 0` being `0` — and an incomplete row
contributes 0 (only its lateness is computed). -/
def payRecordHours (r : PayRecord) (esh esm : ℕ) (eh : ℚ) : ℚ :=
  match r.clockOut with
  | some out => (detectAttendanceStatus r.clockIn out esh esm eh).hoursWorked
  | none => 0

/-- `totalHours` accumulated over the breakdown (`server.js` line 3134). -/
def payrollTotalHours (rs : List PayRecord) (esh esm : ℕ) (eh : ℚ) : ℚ :=
  (rs.map (fun r => payRecordHours r esh esm eh)).sum

/-- `payrollAmount: Math.round(totalHours * hourlyRate * 100) / 100`
(`server.js` line 3144). -/
def payrollAmount (totalHours hourlyRate : ℚ) : ℚ :=
  round2 (totalHours * hourlyRate)

/-! ### Weekly aggregator (`GET /api/work-hours/weekly/:employee_id`) -/

/-- One attendance row as the weekly SQL sees it: calendar day of the
clock-in and the nullable `hours_worked` column. -/
structure RawRow where
  workDate : ℤ
  hoursWorked : Option ℚ
deriving DecidableEq, Repr

/-- Sqlite `ROUND(x, 2)`: round to 2 decimals, ties away from zero. -/
def sqliteRound2 (x : ℚ) : ℚ :=
  if 0 ≤ x then (⌊x * 100 + 1/2⌋ : ℚ) / 100
  else -((⌊-x * 100 + 1/2⌋ : ℚ) / 100)

/-- The `GROUP BY date(clock_in)` of the weekly query: the distinct work
dates of the rows in range. -/
def workDates (rows : List RawRow) : List ℤ :=
  (rows.map (fun r => r.workDate)).dedup

/-- `daily_hours` of one group: `ROUND(SUM(COALESCE(hours_worked, 0)), 2)`
(`server.js` line 2312). -/
def dailyHours (rows : List RawRow) (d : ℤ) : ℚ :=
  sqliteRound2
    (((rows.filter (fun r => r.workDate == d)).map
      (fun r => r.hoursWorked.getD 0)).sum)

/-- The aggregate fields of the weekly response. -/
structure WeeklyResult where
  totalHours : ℚ
  daysWorked : ℕ
  averageHoursPerDay : ℚ
deriving DecidableEq, Repr

/-- `GET /api/work-hours/weekly/:employee_id` (`server.js` lines
2308-2338) applied to the rows of the range: per-date groups, their
rounded daily sums, `days_worked = dailySummary.length`, and
`average_hours_per_day` guarded by `totalDaysWorked > 0`, both outputs
rounded to 2 decimals. -/
def aggregateWeekly (rows : List RawRow) : WeeklyResult :=
  let dates := workDates rows
  let totalHours := (dates.map (fun d => dailyHours rows d)).sum
  let daysWorked := dates.length
  let avg : ℚ := if 0 < daysWorked then totalHours / daysWorked else 0
  { totalHours := round2 totalHours
    daysWorked := daysWorked
    averageHoursPerDay := round2 avg }

/-! ### Schedule storage and falsy resolution -/

/-- A persisted `employee_schedules` row (the columns the resolvers
read). -/
structure ScheduleRow where
  start_time : String
  end_time : String
  expected_hours : ℚ
deriving DecidableEq, Repr

/-- JS `x || d` on a number: `0` (and only `0`, among stored rationals) is
falsy and falls through to the default. -/
def jsOrNum (x d : ℚ) : ℚ := if x = 0 then d else x

/-- JS `s || d` on a string: the empty string is falsy. -/
def jsOrStr (s d : String) : String := if s = "" then d else s

/-- `schedule?.expected_hours || 8`, the resolution pattern shared by the
consumers of the schedule (`server.js` lines 1861-1863, 2419-2421,
2807-2810, 3103-3105). -/
def effectiveExpectedHours (sched : Option ScheduleRow) : ℚ :=
  match sched with
  | none => 8
  | some r => jsOrNum r.expected_hours 8

/-- `schedule?.start_time || '09:00'` at the same call sites. -/
def effectiveStartTime (sched : Option ScheduleRow) : String :=
  match sched with
  | none => "09:00"
  | some r => jsOrStr r.start_time "09:00"

/-- `schedule?.end_time || '17:00'` at the same call sites. -/
def effectiveEndTime (sched : Option ScheduleRow) : String :=
  match sched with
  | none => "17:00"
  | some r => jsOrStr r.end_time "17:00"

/-- The request guard of `POST /api/schedules/:employee_id` (`server.js`
lines 2029-2033): `!start_time || !end_time || expected_hours ===
undefined` rejects; an `expected_hours` of `0` passes the guard and is
stored as given. `none` stands for an absent (undefined) body field. -/
def scheduleUpsertAccepted (start_time end_time : Option String)
    (expected_hours : Option ℚ) : Bool :=
  match start_time, end_time, expected_hours with
  | some s, some e, some _ => !(s == "") && !(e == "")
  | _, _, _ => false

/-! ## Helper lemmas -/

theorem jsRound_mono {x y : ℚ} (h : x ≤ y) : jsRound x ≤ jsRound y :=
  Int.floor_le_floor (by linarith)

theorem round2_mono {x y : ℚ} (h : x ≤ y) : round2 x ≤ round2 y := by
  unfold round2
  have hf : jsRound (x * 100) ≤ jsRound (y * 100) := jsRound_mono (by linarith)
  have hc : ((jsRound (x * 100) : ℤ) : ℚ) ≤ ((jsRound (y * 100) : ℤ) : ℚ) := by
    exact_mod_cast hf
  linarith

theorem round2_intCast_div_100 (k : ℤ) :
    round2 ((k : ℚ) / 100) = (k : ℚ) / 100 := by
  unfold round2 jsRound
  rw [div_mul_cancel₀ (k : ℚ) (by norm_num : (100 : ℚ) ≠ 0)]
  rw [Int.floor_int_add]
  norm_num

theorem round2_natCast_div_100 (k : ℕ) :
    round2 ((k : ℚ) / 100) = (k : ℚ) / 100 := by
  have h := round2_intCast_div_100 (k : ℤ)
  push_cast at h
  exact h

theorem mem_dateRange {s e d : ℤ} : d ∈ dateRange s e ↔ s ≤ d ∧ d ≤ e := by
  unfold dateRange
  simp only [List.mem_map, List.mem_range]
  constructor
  · rintro ⟨i, hi, rfl⟩
    omega
  · rintro ⟨h1, h2⟩
    exact ⟨(d - s).toNat, by omega, by omega⟩

theorem mem_attendedDates {rows : List AttRow} {emp : ℕ} {s e d : ℤ} :
    d ∈ attendedDates rows emp s e ↔
      ∃ r ∈ rows, r.employee = emp ∧ s ≤ r.workDate ∧ r.workDate ≤ e ∧
        r.workDate = d := by
  unfold attendedDates
  simp only [List.mem_dedup, List.mem_map, List.mem_filter, Bool.and_eq_true,
    beq_iff_eq, decide_eq_true_eq]
  constructor
  · rintro ⟨r, ⟨hr, ⟨hemp, h1⟩, h2⟩, rfl⟩
    exact ⟨r, hr, hemp, h1, h2, rfl⟩
  · rintro ⟨r, hr, hemp, h1, h2, rfl⟩
    exact ⟨r, ⟨hr, ⟨hemp, h1⟩, h2⟩, rfl⟩

theorem mem_missingDays {rows : List AttRow} {emp : ℕ} {s e d : ℤ} :
    d ∈ missingDays rows emp s e ↔
      s ≤ d ∧ d ≤ e ∧ isWeekday d = true ∧
        ∀ r ∈ rows, ¬(r.employee = emp ∧ r.workDate = d) := by
  have h1 : d ∈ missingDays rows emp s e ↔
      (d ∈ dateRange s e ∧ isWeekday d = true) ∧
        d ∉ attendedDates rows emp s e := by
    unfold missingDays expectedDates
    simp [List.mem_filter]
    tauto
  rw [h1, mem_dateRange]
  simp only [mem_attendedDates]
  constructor
  · rintro ⟨⟨⟨hsd, hde⟩, hwk⟩, hni⟩
    refine ⟨hsd, hde, hwk, ?_⟩
    rintro r hr ⟨hemp, hwd⟩
    exact hni ⟨r, hr, hemp, by omega, by omega, hwd⟩
  · rintro ⟨hsd, hde, hwk, hall⟩
    refine ⟨⟨⟨hsd, hde⟩, hwk⟩, ?_⟩
    rintro ⟨r, hr, hemp, h2, h3, hwd⟩
    exact hall r hr ⟨hemp, hwd⟩

/-- Claim C4: a date is reported missing for an employee iff it lies in
the inclusive range, falls on Monday through Friday, and the employee has
no attendance row dated that day; a row without a clock-out still counts
as attendance for its day and its day is never also reported missing; an
employee with zero attendance over 2025-12-01..2025-12-07 (days
20423..20429, Monday to Sunday) gets exactly 5 missing days and no
incomplete records, and a pure weekend range yields none. -/
theorem C4_missing_day_detection :
    (∀ (rows : List AttRow) (emp : ℕ) (s e d : ℤ),
      d ∈ missingDays rows emp s e ↔
        s ≤ d ∧ d ≤ e ∧ isWeekday d = true ∧
          ∀ r ∈ rows, ¬(r.employee = emp ∧ r.workDate = d)) ∧
    (∀ (rows : List AttRow) (emp : ℕ) (s e : ℤ) (r : AttRow),
      r ∈ rows → r.employee = emp →
        r.workDate ∉ missingDays rows emp s e) ∧
    (missingDays [] 7 20423 20429).length = 5 ∧
    incompleteInRange [] 20423 20429 = [] ∧
    missingDays [] 7 20428 20429 = [] := by
  refine ⟨fun rows emp s e d => mem_missingDays, ?_, by decide, by decide,
    by decide⟩
  intro rows emp s e r hr hemp hmem
  exact (mem_missingDays.1 hmem).2.2.2 r hr ⟨hemp, rfl⟩

/-- Witness for C4: a Monday row without a clock-out keeps its Monday out
of the missing days. -/
theorem C4_missing_day_detection_witness :
    (20423 : ℤ) ∉ missingDays [⟨7, 20423, false⟩] 7 20423 20429 :=
  C4_missing_day_detection.2.1 [⟨7, 20423, false⟩] 7 20423 20429
    ⟨7, 20423, false⟩ (by simp) rfl

/-! ## Claims about the status classifier -/

/-- Claim C1, counterexample: the guards of `detectAttendanceStatus`
compare the unrounded elapsed hours with `expectedHours`, while the
returned `hoursWorked` field is rounded to 2 decimals, so a completed
record of 7 hours 59 minutes 59 seconds against an 8-hour schedule is
flagged `isUndertime` although its reported `hoursWorked` equals
`expectedHours` — refuting the claimed equivalence between the flags and
the comparison of the `StatusResult` hours fields. -/
theorem C1_counterexample :
    (detectAttendanceStatus ⟨0, 9, 0, 0⟩ ⟨0, 16, 59, 59⟩ 9 0 8).isUndertime = true ∧
    (detectAttendanceStatus ⟨0, 9, 0, 0⟩ ⟨0, 16, 59, 59⟩ 9 0 8).hoursWorked =
      (detectAttendanceStatus ⟨0, 9, 0, 0⟩ ⟨0, 16, 59, 59⟩ 9 0 8).expectedHours :=
  ⟨by norm_num [detectAttendanceStatus, classifyRecord, classifyIncomplete, rawHours, round2, jsRound, Timestamp.toMillis, setHours], by norm_num [detectAttendanceStatus, classifyRecord, classifyIncomplete, rawHours, round2, jsRound, Timestamp.toMillis, setHours]⟩

/-- Claim C1, amended: for every completed record and schedule, the hours
flags of the classifier are equivalent to the strict comparisons of the
*unrounded* elapsed hours `rawHours` with `expectedHours` (not of the
rounded `hoursWorked` field): `isUndertime` iff `rawHours < expectedHours`,
`isOvertime` iff `rawHours > expectedHours`, never both, and both false
exactly when `rawHours = expectedHours`; `isLate` is determined solely by
the clock-in against the expected start placed on the clock-in day. -/
theorem C1_flags_exclusive (clockIn clockOut : Timestamp) (esh esm : ℕ)
    (eh : ℚ) :
    ((detectAttendanceStatus clockIn clockOut esh esm eh).isUndertime = true ↔
      rawHours clockIn clockOut < eh) ∧
    ((detectAttendanceStatus clockIn clockOut esh esm eh).isOvertime = true ↔
      eh < rawHours clockIn clockOut) ∧
    ¬((detectAttendanceStatus clockIn clockOut esh esm eh).isUndertime = true ∧
      (detectAttendanceStatus clockIn clockOut esh esm eh).isOvertime = true) ∧
    (((detectAttendanceStatus clockIn clockOut esh esm eh).isUndertime = false ∧
      (detectAttendanceStatus clockIn clockOut esh esm eh).isOvertime = false) ↔
      rawHours clockIn clockOut = eh) ∧
    (detectAttendanceStatus clockIn clockOut esh esm eh).isLate =
      decide ((setHours clockIn esh esm).toMillis < clockIn.toMillis) := by
  refine ⟨?_, ?_, ?_, ?_, rfl⟩
  · simp [detectAttendanceStatus]
  · simp [detectAttendanceStatus]
  · simp [detectAttendanceStatus]
    intro h1
    exact le_of_lt h1
  · simp [detectAttendanceStatus]
    constructor
    · rintro ⟨h1, h2⟩
      exact le_antisymm h2 h1
    · intro h
      exact ⟨le_of_eq h.symm, le_of_eq h⟩

/-- Claim C2: for a completed record the reported `hoursWorked` is the
elapsed wall-clock time in hours rounded to 2 decimals; and on the
worked example — schedule 09:00/8h, clock-in 2025-11-27 09:15 (day 20419),
clock-out 17:30 — the classifier returns hoursWorked 8.25, isLate with 15
late minutes, isOvertime with 0.25 overtime hours, and no undertime. -/
theorem C2_hours_worked_rounded :
    (∀ (tin tout : Timestamp) (esh esm : ℕ) (eh : ℚ),
      tin.toMillis < tout.toMillis →
      (detectAttendanceStatus tin tout esh esm eh).hoursWorked =
        round2 (rawHours tin tout)) ∧
    (detectAttendanceStatus ⟨20419, 9, 15, 0⟩ ⟨20419, 17, 30, 0⟩ 9 0 8).hoursWorked
      = 8.25 ∧
    (detectAttendanceStatus ⟨20419, 9, 15, 0⟩ ⟨20419, 17, 30, 0⟩ 9 0 8).isLate
      = true ∧
    (detectAttendanceStatus ⟨20419, 9, 15, 0⟩ ⟨20419, 17, 30, 0⟩ 9 0 8).lateMinutes
      = 15 ∧
    (detectAttendanceStatus ⟨20419, 9, 15, 0⟩ ⟨20419, 17, 30, 0⟩ 9 0 8).isOvertime
      = true ∧
    (detectAttendanceStatus ⟨20419, 9, 15, 0⟩ ⟨20419, 17, 30, 0⟩ 9 0 8).overtimeHours
      = 0.25 ∧
    (detectAttendanceStatus ⟨20419, 9, 15, 0⟩ ⟨20419, 17, 30, 0⟩ 9 0 8).isUndertime
      = false :=
  ⟨fun _ _ _ _ _ _ => rfl, by norm_num [detectAttendanceStatus, classifyRecord, classifyIncomplete, rawHours, round2, jsRound, Timestamp.toMillis, setHours], by norm_num [detectAttendanceStatus, classifyRecord, classifyIncomplete, rawHours, round2, jsRound, Timestamp.toMillis, setHours], by norm_num [detectAttendanceStatus, classifyRecord, classifyIncomplete, rawHours, round2, jsRound, Timestamp.toMillis, setHours], by norm_num [detectAttendanceStatus, classifyRecord, classifyIncomplete, rawHours, round2, jsRound, Timestamp.toMillis, setHours], by norm_num [detectAttendanceStatus, classifyRecord, classifyIncomplete, rawHours, round2, jsRound, Timestamp.toMillis, setHours], by norm_num [detectAttendanceStatus, classifyRecord, classifyIncomplete, rawHours, round2, jsRound, Timestamp.toMillis, setHours]⟩

/-- Witness for C2 at a concrete ordered pair (09:00 to 17:00). -/
theorem C2_hours_worked_rounded_witness :
    (detectAttendanceStatus ⟨0, 9, 0, 0⟩ ⟨0, 17, 0, 0⟩ 9 0 8).hoursWorked =
      round2 (rawHours ⟨0, 9, 0, 0⟩ ⟨0, 17, 0, 0⟩) :=
  C2_hours_worked_rounded.1 ⟨0, 9, 0, 0⟩ ⟨0, 17, 0, 0⟩ 9 0 8 (by decide)

/-- Claim C3: on both the complete and the incomplete path, `isLate` holds
iff the clock-in instant is strictly after the expected start placed on
the calendar day of the clock-in, with
`lateMinutes = Math.round(difference in minutes)` when late and 0
otherwise; a clock-in exactly at the expected start is not late, one
minute after it is late with `lateMinutes = 1`. -/
theorem C3_lateness_strict :
    (∀ (tin : Timestamp) (tout : Option Timestamp) (esh esm : ℕ) (eh : ℚ),
      ((classifyRecord tin tout esh esm eh).isLate = true ↔
        (setHours tin esh esm).toMillis < tin.toMillis) ∧
      (classifyRecord tin tout esh esm eh).lateMinutes =
        (if (setHours tin esh esm).toMillis < tin.toMillis then
          jsRound (((tin.toMillis - (setHours tin esh esm).toMillis : ℤ) : ℚ)
            / (1000 * 60))
        else 0)) ∧
    (classifyRecord ⟨20419, 9, 0, 0⟩ none 9 0 8).isLate = false ∧
    (classifyRecord ⟨20419, 9, 0, 0⟩ (some ⟨20419, 17, 0, 0⟩) 9 0 8).isLate
      = false ∧
    (classifyRecord ⟨20419, 9, 1, 0⟩ none 9 0 8).isLate = true ∧
    (classifyRecord ⟨20419, 9, 1, 0⟩ none 9 0 8).lateMinutes = 1 ∧
    (classifyRecord ⟨20419, 9, 1, 0⟩ (some ⟨20419, 17, 0, 0⟩) 9 0 8).isLate
      = true ∧
    (classifyRecord ⟨20419, 9, 1, 0⟩ (some ⟨20419, 17, 0, 0⟩) 9 0 8).lateMinutes
      = 1 := by
  refine ⟨fun tin tout esh esm eh => ?_, by norm_num [detectAttendanceStatus, classifyRecord, classifyIncomplete, rawHours, round2, jsRound, Timestamp.toMillis, setHours], by norm_num [detectAttendanceStatus, classifyRecord, classifyIncomplete, rawHours, round2, jsRound, Timestamp.toMillis, setHours], by norm_num [detectAttendanceStatus, classifyRecord, classifyIncomplete, rawHours, round2, jsRound, Timestamp.toMillis, setHours], by norm_num [detectAttendanceStatus, classifyRecord, classifyIncomplete, rawHours, round2, jsRound, Timestamp.toMillis, setHours], by norm_num [detectAttendanceStatus, classifyRecord, classifyIncomplete, rawHours, round2, jsRound, Timestamp.toMillis, setHours], by norm_num [detectAttendanceStatus, classifyRecord, classifyIncomplete, rawHours, round2, jsRound, Timestamp.toMillis, setHours]⟩
  cases tout with
  | none =>
      exact ⟨by simp [classifyRecord, classifyIncomplete], rfl⟩
  | some out =>
      exact ⟨by simp [classifyRecord, detectAttendanceStatus], rfl⟩

/-- Claim C9, counterexample: with clock-out three seconds before
clock-in and an 8-hour schedule, `undertimeHours` is rounded to exactly
8, which does not *exceed* `expectedHours` as the claim states (the
sub-rounding deficit is absorbed). -/
theorem C9_counterexample :
    (detectAttendanceStatus ⟨0, 9, 0, 0⟩ ⟨0, 8, 59, 57⟩ 9 0 8).isUndertime
      = true ∧
    (detectAttendanceStatus ⟨0, 9, 0, 0⟩ ⟨0, 8, 59, 57⟩ 9 0 8).undertimeHours
      = 8 ∧
    ¬((detectAttendanceStatus ⟨0, 9, 0, 0⟩ ⟨0, 8, 59, 57⟩ 9 0 8).expectedHours
      < (detectAttendanceStatus ⟨0, 9, 0, 0⟩ ⟨0, 8, 59, 57⟩ 9 0 8).undertimeHours) :=
  ⟨by norm_num [detectAttendanceStatus, classifyRecord, classifyIncomplete, rawHours, round2, jsRound, Timestamp.toMillis, setHours], by norm_num [detectAttendanceStatus, classifyRecord, classifyIncomplete, rawHours, round2, jsRound, Timestamp.toMillis, setHours], by norm_num [detectAttendanceStatus, classifyRecord, classifyIncomplete, rawHours, round2, jsRound, Timestamp.toMillis, setHours]⟩

/-- Claim C9, amended: for clock-out strictly before clock-in the
classifier performs no clamping and raises no error (it is a total
function): `hoursWorked` is the negative raw difference rounded to 2
decimals, the record is flagged `isUndertime` with
`undertimeHours = round2(expectedHours - rawHours)`, and — for a
nonnegative `expectedHours` expressible with two decimals, as stored
schedules are — `undertimeHours` is at least `expectedHours` (equality is
possible when the rounding absorbs a deficit under half a hundredth of an
hour). -/
theorem C9_negative_interval (tin tout : Timestamp) (esh esm : ℕ) (k : ℕ)
    (hord : tout.toMillis < tin.toMillis) :
    (detectAttendanceStatus tin tout esh esm ((k : ℚ) / 100)).hoursWorked =
      round2 (rawHours tin tout) ∧
    (detectAttendanceStatus tin tout esh esm ((k : ℚ) / 100)).isUndertime
      = true ∧
    (detectAttendanceStatus tin tout esh esm ((k : ℚ) / 100)).undertimeHours =
      round2 ((k : ℚ) / 100 - rawHours tin tout) ∧
    (k : ℚ) / 100 ≤
      (detectAttendanceStatus tin tout esh esm ((k : ℚ) / 100)).undertimeHours := by
  have hraw : rawHours tin tout < 0 := by
    unfold rawHours
    apply div_neg_of_neg_of_pos
    · have h0 : tout.toMillis - tin.toMillis < 0 := by omega
      exact_mod_cast h0
    · norm_num
  have hkn : (0 : ℚ) ≤ (k : ℚ) / 100 := by positivity
  have hlt : rawHours tin tout < (k : ℚ) / 100 := lt_of_lt_of_le hraw hkn
  refine ⟨rfl, ?_, ?_, ?_⟩
  · simp [detectAttendanceStatus, hlt]
  · simp [detectAttendanceStatus, hlt]
  · have h1 : round2 ((k : ℚ) / 100) ≤
        round2 ((k : ℚ) / 100 - rawHours tin tout) :=
      round2_mono (by linarith)
    rw [round2_natCast_div_100] at h1
    simpa [detectAttendanceStatus, hlt] using h1

/-- Witness for C9 at a concrete input (clock-out one hour before
clock-in, expected hours 800/100 = 8). -/
theorem C9_negative_interval_witness :
    (detectAttendanceStatus ⟨0, 10, 0, 0⟩ ⟨0, 9, 0, 0⟩ 9 0 (((800 : ℕ) : ℚ) / 100)).isUndertime
      = true ∧
    ((800 : ℕ) : ℚ) / 100 ≤
      (detectAttendanceStatus ⟨0, 10, 0, 0⟩ ⟨0, 9, 0, 0⟩ 9 0 (((800 : ℕ) : ℚ) / 100)).undertimeHours :=
  ⟨(C9_negative_interval ⟨0, 10, 0, 0⟩ ⟨0, 9, 0, 0⟩ 9 0 800 (by decide)).2.1,
   (C9_negative_interval ⟨0, 10, 0, 0⟩ ⟨0, 9, 0, 0⟩ 9 0 800 (by decide)).2.2.2⟩

/-- Claim C5: in the schedule-comparison report each considered day comes
from a completed record of the range, its start variance is the rounded
minute difference between the actual clock-in and the expected start on
that day, `onTime` holds iff the variance is at most 0 (at-or-before, or
within rounding — weaker than the strict-after lateness of the
classifier, as the 20-seconds-late example shows), `meetsExpectedHours`
holds iff `hours_worked >= expectedHours`, and `overall` is their
conjunction. -/
theorem C5_compliance_rules :
    (∀ (r : CompRecord) (esh esm : ℕ) (eh : ℚ),
      (compareDay r esh esm eh).startVarianceMinutes =
        jsRound (((r.clockIn.toMillis -
          (setHours r.clockIn esh esm).toMillis : ℤ) : ℚ) / (1000 * 60)) ∧
      ((compareDay r esh esm eh).onTime = true ↔
        (compareDay r esh esm eh).startVarianceMinutes ≤ 0) ∧
      ((compareDay r esh esm eh).meetsExpectedHours = true ↔
        eh ≤ r.hoursWorked) ∧
      (compareDay r esh esm eh).overall =
        ((compareDay r esh esm eh).onTime &&
          (compareDay r esh esm eh).meetsExpectedHours)) ∧
    (∀ (rows : List CompRecord) (esh esm : ℕ) (eh : ℚ) (s e : ℤ)
        (c : DayComparison),
      c ∈ scheduleComparison rows esh esm eh s e ↔
        ∃ r ∈ rows, r.clockOut.isSome = true ∧ s ≤ r.clockIn.day ∧
          r.clockIn.day ≤ e ∧ c = compareDay r esh esm eh) ∧
    (detectAttendanceStatus ⟨0, 9, 0, 20⟩ ⟨0, 17, 0, 20⟩ 9 0 8).isLate
      = true ∧
    (compareDay ⟨⟨0, 9, 0, 20⟩, some ⟨0, 17, 0, 20⟩, 8⟩ 9 0 8).onTime
      = true := by
  refine ⟨fun r esh esm eh => ⟨rfl, ?_, ?_, rfl⟩, fun rows esh esm eh s e c => ?_, ?_, ?_⟩
  · simp [compareDay]
  · simp [compareDay]
  · unfold scheduleComparison
    simp only [List.mem_map, List.mem_filter, Bool.and_eq_true,
      decide_eq_true_eq]
    constructor
    · rintro ⟨r, ⟨hr, ⟨hs, h1⟩, h2⟩, rfl⟩
      exact ⟨r, hr, hs, h1, h2, rfl⟩
    · rintro ⟨r, hr, hs, h1, h2, rfl⟩
      exact ⟨r, ⟨hr, ⟨hs, h1⟩, h2⟩, rfl⟩
  · norm_num [detectAttendanceStatus, rawHours, Timestamp.toMillis, setHours]
  · norm_num [compareDay, jsRound, Timestamp.toMillis, setHours,
      Int.floor_eq_iff]

/-- Claim C8: the weekly aggregator on an empty range returns zero days
worked and zero average without any division error; in general
`days_worked` is the number of distinct work dates with at least one
record, and the average is the total divided by `days_worked`, rounded,
whenever `days_worked > 0`. -/
theorem C8_weekly_aggregate :
    aggregateWeekly [] = ⟨0, 0, 0⟩ ∧
    (∀ rows : List RawRow,
      (aggregateWeekly rows).daysWorked = (workDates rows).length) ∧
    (∀ rows : List RawRow, 0 < (workDates rows).length →
      (aggregateWeekly rows).averageHoursPerDay =
        round2 (((workDates rows).map (fun d => dailyHours rows d)).sum
          / ((workDates rows).length : ℚ))) := by
  refine ⟨?_, fun rows => rfl, fun rows h => ?_⟩
  · norm_num [aggregateWeekly, workDates, round2, jsRound]
  · simp [aggregateWeekly, h]

/-- Witness for C8 on one record of 8 hours. -/
theorem C8_weekly_aggregate_witness :
    (aggregateWeekly [⟨20423, some 8⟩]).averageHoursPerDay =
      round2 (((workDates [⟨20423, some 8⟩]).map
        (fun d => dailyHours [⟨20423, some 8⟩] d)).sum
          / ((workDates [⟨20423, some 8⟩]).length : ℚ)) :=
  C8_weekly_aggregate.2.2 [⟨20423, some 8⟩] (by decide)

/-- Claim C10: the schedule upsert accepts `expected_hours = 0` (it only
rejects an undefined value), and the falsy-coalescing resolution the
consumers share maps a stored 0 to the default 8, identically to an
absent schedule; an empty stored time string likewise resolves to the
default times. -/
theorem C10_falsy_schedule_resolution :
    scheduleUpsertAccepted (some "08:00") (some "16:00") (some 0) = true ∧
    effectiveExpectedHours (some ⟨"08:00", "16:00", 0⟩) = 8 ∧
    effectiveExpectedHours (some ⟨"08:00", "16:00", 0⟩) =
      effectiveExpectedHours none ∧
    effectiveStartTime (some ⟨"", "16:00", 0⟩) = "09:00" ∧
    effectiveEndTime (some ⟨"08:00", "", 0⟩) = "17:00" := by
  refine ⟨rfl, ?_, ?_, rfl, rfl⟩
  · simp [effectiveExpectedHours, jsOrNum]
  · simp [effectiveExpectedHours, jsOrNum]

theorem openCount_closeFirstOpen_le (db : List ARecord) (e e2 : ℕ) :
    openCount (closeFirstOpen db e) e2 ≤ openCount db e2 := by
  induction db with
  | nil => simp [closeFirstOpen]
  | cons r rs ih =>
    unfold closeFirstOpen openCount
    unfold openCount at ih
    by_cases hc : (r.employee == e && r.isOpen) = true
    · rw [if_pos hc]
      have hfalse : ((⟨r.employee, false⟩ : ARecord).employee == e2 &&
          (⟨r.employee, false⟩ : ARecord).isOpen) = false := by simp
      simp [List.countP_cons, hfalse]
    · rw [if_neg hc]
      simp only [List.countP_cons]
      omega

theorem openCount_closeFirstOpen_self (db : List ARecord) (e : ℕ)
    (h : 0 < openCount db e) :
    openCount (closeFirstOpen db e) e = openCount db e - 1 := by
  induction db with
  | nil => simp [openCount] at h
  | cons r rs ih =>
    unfold closeFirstOpen openCount
    unfold openCount at ih h
    by_cases hc : (r.employee == e && r.isOpen) = true
    · rw [if_pos hc]
      have hfalse : ((⟨r.employee, false⟩ : ARecord).employee == e &&
          (⟨r.employee, false⟩ : ARecord).isOpen) = false := by simp
      simp [List.countP_cons, hfalse, hc]
    · rw [if_neg hc]
      simp only [List.countP_cons, hc, Bool.false_eq_true, if_false,
        Nat.add_zero] at h ⊢
      exact ih h

theorem openCount_append_single (db : List ARecord) (e e2 : ℕ) :
    openCount (db ++ [⟨e, true⟩]) e2 =
      openCount db e2 + (if e = e2 then 1 else 0) := by
  unfold openCount
  rw [List.countP_append]
  by_cases h : e = e2
  · simp [h, List.countP_cons]
  · have hfalse : ((⟨e, true⟩ : ARecord).employee == e2 &&
        (⟨e, true⟩ : ARecord).isOpen) = false := by simp [h]
    simp [h, hfalse, List.countP_cons]

theorem any_open_iff (db : List ARecord) (e : ℕ) :
    (db.any fun r => r.employee == e && r.isOpen) = true ↔
      0 < openCount db e := by
  unfold openCount
  rw [List.any_eq_true, List.countP_pos_iff]

/-- Claim C6: starting from a state with at most one open record per
employee, the clock-in path preserves the invariant: `POST /api/clock-in`
fails with the conflict error exactly when an open record of the employee
exists (inserting nothing), and the QR scan toggle closes the existing
open record when one exists — reducing the open count — and only
otherwise inserts a fresh open record; both outcomes keep every employee
at no more than one open record. -/
theorem C6_clock_in_invariant (db : List ARecord) (e : ℕ)
    (hinv : AtMostOneOpen db) :
    ((clockInOp db e = Except.error "Already clocked in") ↔
      0 < openCount db e) ∧
    (∀ db2, clockInOp db e = Except.ok db2 → AtMostOneOpen db2) ∧
    AtMostOneOpen (attendanceScan db e) ∧
    (0 < openCount db e →
      openCount (attendanceScan db e) e = openCount db e - 1) ∧
    (openCount db e = 0 → attendanceScan db e = db ++ [⟨e, true⟩]) := by
  have hins : openCount db e = 0 → AtMostOneOpen (db ++ [⟨e, true⟩]) := by
    intro h0 e2
    rw [openCount_append_single]
    by_cases he : e = e2
    · subst he
      simp [h0]
    · have h1 := hinv e2
      simp [he]
      omega
  refine ⟨?_, ?_, ?_, ?_, ?_⟩
  · unfold clockInOp
    constructor
    · intro herr
      by_cases h : (db.any fun r => r.employee == e && r.isOpen) = true
      · exact (any_open_iff db e).1 h
      · rw [if_neg h] at herr
        simp at herr
    · intro hpos
      rw [if_pos ((any_open_iff db e).2 hpos)]
  · intro db2 hok
    unfold clockInOp at hok
    by_cases h : (db.any fun r => r.employee == e && r.isOpen) = true
    · rw [if_pos h] at hok
      simp at hok
    · rw [if_neg h] at hok
      have hdb2 : db ++ [(⟨e, true⟩ : ARecord)] = db2 := by
        simpa using hok
      rw [← hdb2]
      apply hins
      have hno : ¬ 0 < openCount db e :=
        fun hpos => h ((any_open_iff db e).2 hpos)
      omega
  · unfold attendanceScan
    by_cases h : (db.any fun r => r.employee == e && r.isOpen) = true
    · rw [if_pos h]
      intro e2
      exact le_trans (openCount_closeFirstOpen_le db e e2) (hinv e2)
    · rw [if_neg h]
      apply hins
      have hno : ¬ 0 < openCount db e :=
        fun hpos => h ((any_open_iff db e).2 hpos)
      omega
  · intro hpos
    unfold attendanceScan
    rw [if_pos ((any_open_iff db e).2 hpos)]
    exact openCount_closeFirstOpen_self db e hpos
  · intro h0
    unfold attendanceScan
    have hno : ¬ ((db.any fun r => r.employee == e && r.isOpen) = true) := by
      intro hany
      have := (any_open_iff db e).1 hany
      omega
    rw [if_neg hno]

/-- Witness for C6: one open record of employee 0, then a scan. -/
theorem C6_clock_in_invariant_witness :
    AtMostOneOpen (attendanceScan [⟨0, true⟩] 0) :=
  (C6_clock_in_invariant [⟨0, true⟩] 0 (by
    intro e2
    unfold openCount
    simp [List.countP_cons]
    split <;> omega)).2.2.1

/-- Claim C7, counterexample: a record whose clock-out precedes its
clock-in by one hour makes `totalHours = -1`, and raising the hourly rate
from 1 to 2 then lowers the payroll amount — so the claimed monotonicity
in `hourlyRate` fails without a nonnegativity restriction (negative
totals are reachable, unguarded, per C9). -/
theorem C7_counterexample :
    payrollTotalHours [⟨⟨0, 10, 0, 0⟩, some ⟨0, 9, 0, 0⟩⟩] 9 0 8 = -1 ∧
    (1 : ℚ) ≤ 2 ∧
    ¬(payrollAmount
        (payrollTotalHours [⟨⟨0, 10, 0, 0⟩, some ⟨0, 9, 0, 0⟩⟩] 9 0 8) 1 ≤
      payrollAmount
        (payrollTotalHours [⟨⟨0, 10, 0, 0⟩, some ⟨0, 9, 0, 0⟩⟩] 9 0 8) 2) := by
  refine ⟨?_, by norm_num, ?_⟩ <;>
    norm_num [payrollTotalHours, payRecordHours, payrollAmount,
      detectAttendanceStatus, rawHours, round2, jsRound, Timestamp.toMillis,
      setHours]

/-- Claim C7 (amended): the payroll summarizer returns
`payrollAmount = round2(totalHours * hourlyRate)` where `totalHours` is
the sum of the per-record classifier `hoursWorked` (incomplete records
contributing 0, no break deduction), and the amount is monotonically
non-decreasing in the hourly rate for nonnegative total hours, and in the
total hours for a nonnegative rate (the restrictions the counterexample
forces). -/
theorem C7_payroll_amount (rs : List PayRecord) (esh esm : ℕ)
    (eh rate : ℚ) (h hw1 hw2 rate1 rate2 : ℚ)
    (hh : 0 ≤ h) (hrr : rate1 ≤ rate2) (hrn : 0 ≤ rate)
    (hww : hw1 ≤ hw2) :
    payrollAmount (payrollTotalHours rs esh esm eh) rate =
      round2 ((rs.map (fun r => payRecordHours r esh esm eh)).sum * rate) ∧
    (∀ (tin : Timestamp), payRecordHours ⟨tin, none⟩ esh esm eh = 0) ∧
    payrollAmount h rate1 ≤ payrollAmount h rate2 ∧
    payrollAmount hw1 rate ≤ payrollAmount hw2 rate := by
  refine ⟨rfl, fun _ => rfl, ?_, ?_⟩
  · exact round2_mono (mul_le_mul_of_nonneg_left hrr hh)
  · exact round2_mono (mul_le_mul_of_nonneg_right hww hrn)

/-- Witness for C7 at concrete nonnegative hours and rates. -/
theorem C7_payroll_amount_witness :
    payrollAmount 8 70 = round2
      (([⟨⟨0, 9, 0, 0⟩, some ⟨0, 17, 0, 0⟩⟩].map
        (fun r => payRecordHours r 9 0 8)).sum * 70) ∧
    payrollAmount 8 1 ≤ payrollAmount 8 2 := by
  have h := C7_payroll_amount [⟨⟨0, 9, 0, 0⟩, some ⟨0, 17, 0, 0⟩⟩] 9 0 8 70
    8 8 8 1 2 (by norm_num) (by norm_num) (by norm_num) (by norm_num)
  refine ⟨?_, h.2.2.1⟩
  have h1 := h.1
  norm_num [payrollTotalHours, payRecordHours, detectAttendanceStatus,
    rawHours, round2, jsRound, Timestamp.toMillis, setHours] at h1 ⊢
  exact h1

end TimeTracker
